import Mathlib

/-!
# Verification of the streaming voice-transcription pipeline

Shallow embedding of the streaming transcription core of the
`discord-bot-transcord` repository, together with proofs of the testable
properties stated in its specification.

The embedding follows the JavaScript sources:

* `src/utils/streamingTranscription.js` — WebSocket transcription session:
  turn-message handling (`createStreamingTranscriber`'s message handler),
  final-transcript assembly (`stopStreamingTranscription`), RMS voice
  activity (`computeRms`), and WAV finalization (`finalizeWavFile`).
* `src/utils/streamingAudioProcessor.js` — the session registry
  (`activeStreamingSessions`, `startStreamingSession`,
  `stopStreamingSession`, `getCurrentStreamingStatus`).
* `src/commands/join.js` — the already-recording guard.
* `src/utils/summarizer.js` — empty-transcript handling in
  `generateMeetingSummary` / `createFallbackSummary`.

JavaScript numbers are embedded as exact rationals (`ℚ`); buffers are lists
of byte values (`Nat` below 256); absent / `undefined` fields are `Option`.
-/

namespace Transcord

/-! ## JavaScript string primitives

`String.prototype.trim` and whitespace splitting, embedded as structurally
recursive functions on character lists (so that concrete instances reduce).
They agree with JavaScript's behaviour on the ASCII whitespace the code
deals with. -/

/-- Drop leading whitespace characters. -/
def jsTrimLeft : List Char → List Char
  | [] => []
  | c :: cs => if c.isWhitespace then jsTrimLeft cs else c :: cs

/-- `String.prototype.trim`: drop leading and trailing whitespace. -/
def jsTrim (s : String) : String :=
  ⟨(jsTrimLeft (jsTrimLeft s.data.reverse).reverse)⟩

/-! ## Data model: inbound `Turn` messages and stored transcript entries

From `streamingTranscription.js` lines 135–168: an inbound `Turn` JSON
message carries `transcript`, `turn_order`, `end_of_turn_confidence`,
`words[]` and an optional speaker field, any of which may be absent. -/

/-- An inbound `Turn` message from the remote transcription service.
Fields mirror the JSON message consumed by the `ws.on('message')` handler. -/
structure TurnMessage where
  transcript : Option String
  turnOrder : Option Nat
  endOfTurnConfidence : Option ℚ
  words : Option (List String)
  speakerId : Option String
  deriving Repr, DecidableEq

/-- A stored transcript entry (`transcriptEntry`, lines 154–163 of
`streamingTranscription.js`): `words` is defaulted to `[]` when the message
carries none (`message.words || []`). -/
structure TranscriptEntry where
  text : String
  turnOrder : Option Nat
  confidence : Option ℚ
  words : List String
  speakerId : Option String
  deriving Repr, DecidableEq

/-- Per-session mutable data (`transcriptionData`, lines 65–77):
the accumulated turn list, the participant map (keys in insertion order,
each with a display name), and the activity timestamps. -/
structure SessionData where
  transcripts : List TranscriptEntry
  participants : List (String × String)
  startTime : Nat
  lastActivity : Nat
  isConnected : Bool
  deriving Repr, DecidableEq

/-- Fresh session data, as initialized in `createStreamingTranscriber`. -/
def SessionData.init (now : Nat) : SessionData :=
  { transcripts := [], participants := [], startTime := now
    lastActivity := now, isConnected := false }

/-- The guard on line 138: `message.transcript && message.transcript.trim() !== ''`.
A missing transcript is falsy, the empty string is falsy, and a
whitespace-only transcript fails the `trim` test. -/
def turnAccepted (m : TurnMessage) : Bool :=
  match m.transcript with
  | none => false
  | some s => s ≠ "" && jsTrim s ≠ ""

/-- `Map.set`-like insertion used for the participant map on lines 146–148:
register the speaker only if not already present (`participants.has`). -/
def registerParticipant (ps : List (String × String)) (id : String) :
    List (String × String) :=
  if (ps.map Prod.fst).contains id then ps else ps ++ [(id, id)]

/-- The `case 'Turn'` branch of the message handler
(`streamingTranscription.js` lines 135–168): if the transcript is present
and not whitespace-only, optionally register the speaker, append the
transcript entry, and bump `lastActivity`; otherwise do nothing. -/
def handleTurnMessage (d : SessionData) (m : TurnMessage) (now : Nat) :
    SessionData :=
  if turnAccepted m then
    let ps := match m.speakerId with
      | some sid => registerParticipant d.participants sid
      | none => d.participants
    let entry : TranscriptEntry :=
      { text := (m.transcript).getD ""
        turnOrder := m.turnOrder
        confidence := m.endOfTurnConfidence
        words := (m.words).getD []
        speakerId := m.speakerId }
    { d with participants := ps
             transcripts := d.transcripts ++ [entry]
             lastActivity := now }
  else d

/-- Process a sequence of inbound `Turn` messages (each tagged with its
arrival time) in receipt order. -/
def processTurnMessages (d : SessionData) : List (TurnMessage × Nat) → SessionData
  | [] => d
  | (m, t) :: rest => processTurnMessages (handleTurnMessage d m t) rest

/-! ## Final transcript assembly

From `stopStreamingTranscription` (lines 513–560). -/

/-- `data.transcripts.map(t => t.text).join(' ').trim()` (line 513). -/
def combinedTextOf (ts : List TranscriptEntry) : String :=
  jsTrim (String.intercalate " " (ts.map TranscriptEntry.text))

/-- `data.transcripts.reduce((count, t) => count + (t.words?.length || 0), 0)`
(line 514). Since stored `words` is always an array, this is the sum of the
word-array lengths. -/
def wordCountOf (ts : List TranscriptEntry) : Nat :=
  ts.foldl (fun count t => count + t.words.length) 0

/-- `data.transcripts.map(t => t.confidence).filter(c => typeof c === 'number')`
(line 518). -/
def confidencesOf (ts : List TranscriptEntry) : List ℚ :=
  (ts.map TranscriptEntry.confidence).filterMap id

/-- `confidences.length > 0 ? confidences.reduce((a,b) => a+b, 0) / confidences.length : 0`
(line 519). -/
def averageConfidenceOf (ts : List TranscriptEntry) : ℚ :=
  let cs := confidencesOf ts
  if 0 < cs.length then cs.sum / cs.length else 0

/-- The final-transcript object returned by `stopStreamingTranscription`
(lines 539–560), restricted to the fields the specification talks about. -/
structure FinalTranscript where
  sessionId : String
  combinedText : String
  transcripts : List TranscriptEntry
  participants : List (String × String)
  totalWords : Nat
  participantCount : Nat
  averageConfidence : ℚ
  duration : Nat
  deriving Repr, DecidableEq

/-- Assemble the final transcript from the session data (lines 513–560). -/
def assembleFinalTranscript (sid : String) (d : SessionData) (now : Nat) :
    FinalTranscript :=
  { sessionId := sid
    combinedText := combinedTextOf d.transcripts
    transcripts := d.transcripts
    participants := d.participants
    totalWords := wordCountOf d.transcripts
    participantCount := d.participants.length
    averageConfidence := averageConfidenceOf d.transcripts
    duration := now - d.startTime }

/-! ## The transcriber registry (`activeTranscribers`)

`streamingTranscription.js` keeps a module-level
`Map<sessionId, {websocket, data}>`. We embed it as an association list in
insertion order (JavaScript `Map` preserves insertion order). -/

/-- The `activeTranscribers` map: session id → session data. -/
abbrev TranscriberReg := List (String × SessionData)

/-- `Map.get`: first (and, with unique keys, only) binding for a key. -/
def regGet (r : TranscriberReg) (sid : String) : Option SessionData :=
  (r.find? (fun p => p.1 = sid)).map Prod.snd

/-- `Map.set`: replace the binding if present, otherwise append. -/
def regSet (r : TranscriberReg) (sid : String) (d : SessionData) :
    TranscriberReg :=
  if (r.map Prod.fst).contains sid then
    r.map (fun p => if p.1 = sid then (sid, d) else p)
  else r ++ [(sid, d)]

/-- `Map.delete`: drop the binding for a key. -/
def regDelete (r : TranscriberReg) (sid : String) : TranscriberReg :=
  r.filter (fun p => p.1 ≠ sid)

/-- Result of `stopStreamingTranscription` (lines 455–566): either the
early-return stub `{ transcripts: [], participants: new Map() }` when the
session id is unknown (line 462), or the assembled final transcript. -/
inductive StopTranscriptionResult where
  | noSession
  | finished (ft : FinalTranscript)
  deriving Repr, DecidableEq

/-- `stopStreamingTranscription(sessionId)` (lines 455–566): look the
session up in `activeTranscribers`; if absent return the empty stub and
leave the registry untouched; otherwise delete the entry (line 511) and
return the assembled final transcript. -/
def stopStreamingTranscription (r : TranscriberReg) (sid : String)
    (now : Nat) : StopTranscriptionResult × TranscriberReg :=
  match regGet r sid with
  | none => (.noSession, r)
  | some d => (.finished (assembleFinalTranscript sid d now), regDelete r sid)

/-! ## The streaming-session registry (`activeStreamingSessions`)

From `streamingAudioProcessor.js`: `startStreamingSession`,
`stopStreamingSession`, `getCurrentStreamingStatus`. -/

/-- A `sessionInfo` record (`startStreamingSession`, lines 838–845 of the
file): the per-session entry of `activeStreamingSessions`, with its
subscribed user streams and `active` flag. -/
structure SessionInfo where
  sessionId : String
  userStreams : List String
  startTime : Nat
  active : Bool
  deriving Repr, DecidableEq

/-- The `activeStreamingSessions` map, in insertion order. -/
abbrev SessionReg := List SessionInfo

/-- `Map.set` for `activeStreamingSessions`. -/
def sessionRegSet (r : SessionReg) (info : SessionInfo) : SessionReg :=
  if (r.map SessionInfo.sessionId).contains info.sessionId then
    r.map (fun s => if s.sessionId = info.sessionId then info else s)
  else r ++ [info]

/-- The status snapshot returned by `getCurrentStreamingStatus`. -/
structure StreamingStatus where
  sessionId : String
  participants : Nat
  duration : Nat
  active : Bool
  startTime : Nat
  deriving Repr, DecidableEq

/-- `getCurrentStreamingStatus()` (lines 1008–1025): filter the registry's
values to the active sessions; return `null` if none, else a snapshot of
the most recent (last-inserted) active session. -/
def getCurrentStreamingStatus (r : SessionReg) (now : Nat) :
    Option StreamingStatus :=
  let activeSessions := r.filter (fun s => s.active)
  match activeSessions.getLast? with
  | none => none
  | some s =>
      some { sessionId := s.sessionId
             participants := s.userStreams.length
             duration := now - s.startTime
             active := s.active
             startTime := s.startTime }

/-- `stopStreamingSession(sessionId)` (lines 864–902): if the id is not in
`activeStreamingSessions` return `null` leaving both registries untouched;
otherwise destroy the user streams, delegate to
`stopStreamingTranscription`, and delete the entry. -/
def stopStreamingSession (r : SessionReg) (tr : TranscriberReg)
    (sid : String) (now : Nat) :
    Option StopTranscriptionResult × SessionReg × TranscriberReg :=
  match r.find? (fun s => s.sessionId = sid) with
  | none => (none, r, tr)
  | some _ =>
      let (ft, tr') := stopStreamingTranscription tr sid now
      (some ft, r.filter (fun s => s.sessionId ≠ sid), tr')

/-- `startStreamingSession(sessionId, connection, userIds)`
(lines 772–857): register a new active `sessionInfo` carrying one stream
per user id. (Transcriber creation and stream subscription are external
I/O; the registry effect is the `activeStreamingSessions.set` on
line 847.) -/
def startStreamingSession (r : SessionReg) (sid : String)
    (userIds : List String) (now : Nat) : SessionReg :=
  sessionRegSet r
    { sessionId := sid, userStreams := userIds, startTime := now
      active := true }

/-! ## The join command's already-recording guard

From `commands/join.js` lines 134–140: before anything is started, the
command queries `getCurrentStreamingStatus()` and, if a status is returned
with `active` set, replies "Already Recording" and returns without touching
any state. Otherwise it proceeds to `startStreamingSession`. -/

/-- Outcome of a `/join` start attempt. -/
inductive JoinOutcome where
  | alreadyRecording
  | started (sessionId : String)
  deriving Repr, DecidableEq

/-- The recording-start path of the join command (`join.js` lines 134–196),
over the two registries: the guard of lines 134–140 followed, when it
passes, by `startStreamingSession`. -/
def joinStart (r : SessionReg) (tr : TranscriberReg) (sid : String)
    (userIds : List String) (now : Nat) :
    JoinOutcome × SessionReg × TranscriberReg :=
  match getCurrentStreamingStatus r now with
  | some st =>
      if st.active then (.alreadyRecording, r, tr)
      else (.started sid, startStreamingSession r sid userIds now, tr)
  | none => (.started sid, startStreamingSession r sid userIds now, tr)

/-! ## The connection handshake (`createStreamingTranscriber`)

`streamingTranscription.js` lines 104–194: the returned promise settles
with the first of (a) a `Begin` message — which also registers the
transcriber in `activeTranscribers` and clears the timeout, (b) a socket
`error` event — which rejects, or (c) the 10-second timeout — which rejects
with `'WebSocket connection timeout'`. The message handler is never
detached, so every delivered `Begin` — even one arriving after the promise
has already been rejected — still executes `activeTranscribers.set`. -/

/-- Inbound JSON messages, dispatched by `message.type` (lines 119–177). -/
inductive InboundMessage where
  | begin (id : String) (expiresAt : Nat)
  | turn (m : TurnMessage)
  | termination
  | unknown
  deriving Repr, DecidableEq

/-- WebSocket events delivered to the handlers installed in
`createStreamingTranscriber`. -/
inductive WsEvent where
  | message (m : InboundMessage)
  | socketError
  | socketClose
  deriving Repr, DecidableEq

/-- The handshake timeout of line 107, in milliseconds. -/
def handshakeTimeoutMs : Nat := 10000

/-- How the promise of `createStreamingTranscriber` settles. -/
inductive OpenResult where
  | success (assemblySessionId : String)
  | connectionTimeout
  | socketFailure
  deriving Repr, DecidableEq

/-- An event settles the promise if it is a `Begin` message (resolve) or a
socket error (reject). -/
def settlesPromise : WsEvent → Bool
  | .message (.begin _ _) => true
  | .socketError => true
  | _ => false

/-- Is the event a `Begin` message? -/
def isBeginEvent : WsEvent → Bool
  | .message (.begin _ _) => true
  | _ => false

/-- Settlement of the open promise: the first `Begin`/error event delivered
strictly before the timeout decides; otherwise the timeout rejection of
lines 105–107 fires. Events are listed in delivery order, tagged with
their delivery time in milliseconds since the attempt began. -/
def openAttemptResult (events : List (Nat × WsEvent)) : OpenResult :=
  match events.find? (fun te => te.1 < handshakeTimeoutMs && settlesPromise te.2) with
  | some (_, .message (.begin id _)) => .success id
  | some _ => .socketFailure
  | none => .connectionTimeout

/-- Evolution of `transcriptionData` under one delivered event: `Turn`
messages are handled by `handleTurnMessage`; `Termination`, socket errors
and closes clear `isConnected` (lines 170–193). -/
def applyWsEvent (d : SessionData) (t : Nat) : WsEvent → SessionData
  | .message (.begin _ _) => d
  | .message (.turn m) => handleTurnMessage d m t
  | .message .termination => { d with isConnected := false }
  | .message .unknown => d
  | .socketError => { d with isConnected := false }
  | .socketClose => { d with isConnected := false }

/-- The session data after the whole event sequence has been delivered. -/
def sessionDataAfter (startNow : Nat) (events : List (Nat × WsEvent)) :
    SessionData :=
  events.foldl (fun d te => applyWsEvent d te.1 te.2) (SessionData.init startNow)

/-- Effect of an open attempt on `activeTranscribers`: the `Begin` handler
(lines 120–133) performs `activeTranscribers.set(sessionId, …)` whenever it
runs — whether or not the promise has already been rejected — and the map
stores a live reference to `transcriptionData`. -/
def openAttemptRegistry (r : TranscriberReg) (sid : String) (startNow : Nat)
    (events : List (Nat × WsEvent)) : TranscriberReg :=
  if events.any (fun te => isBeginEvent te.2) then
    regSet r sid (sessionDataAfter startNow events)
  else r

/-- `createStreamingTranscriber(sessionId, …)`: the settled result together
with the transcriber registry after the delivered events. -/
def createStreamingTranscriber (r : TranscriberReg) (sid : String)
    (startNow : Nat) (events : List (Nat × WsEvent)) :
    OpenResult × TranscriberReg :=
  (openAttemptResult events, openAttemptRegistry r sid startNow events)

/-! ## Voice-activity RMS (`computeRms`)

`streamingTranscription.js` lines 436–448: sum the squares of the 16-bit
little-endian samples, divide by `max(1, sampleCount)`, take the square
root, and normalize by 32767. -/

/-- `buffer.readInt16LE`: decode two bytes as a signed 16-bit
little-endian integer. -/
def readInt16LE (b0 b1 : Nat) : Int :=
  let u := b0 + 256 * b1
  if u < 32768 then (u : Int) else (u : Int) - 65536

/-- The 16-bit samples of a byte buffer, in order; a trailing odd byte is
ignored (`Math.floor(buffer.length / 2)`, line 439). -/
def pcm16Samples : List Nat → List Int
  | b0 :: b1 :: rest => readInt16LE b0 b1 :: pcm16Samples rest
  | _ => []

/-- `sumSq` accumulated by the loop of lines 440–443. -/
def sumSquares (buf : List Nat) : ℚ :=
  ((pcm16Samples buf).map (fun v => ((v * v : Int) : ℚ))).sum

/-- `const sampleCount = Math.floor(buffer.length / 2)` (line 439). -/
def sampleCount (buf : List Nat) : Nat := buf.length / 2

/-- `const meanSq = sumSq / Math.max(1, sampleCount)` (line 444). -/
def meanSquare (buf : List Nat) : ℚ :=
  sumSquares buf / (max 1 (sampleCount buf) : ℕ)

/-- `computeRms` (lines 436–448): `0` for a missing or empty buffer,
otherwise `Math.sqrt(meanSq) / 32767`. Real-number arithmetic stands in
for IEEE doubles; all intermediate values here are exact. -/
noncomputable def computeRms (buf : List Nat) : ℝ :=
  if buf.length = 0 then 0 else Real.sqrt (meanSquare buf : ℝ) / 32767

/-! ## WAV finalization (`finalizeWavFile`)

`streamingTranscription.js` lines 599–638: a 44-byte RIFF/WAVE header is
prepended to the raw PCM bytes. -/

/-- `buffer.writeUInt16LE`. -/
def u16le (v : Nat) : List Nat := [v % 256, v / 256 % 256]

/-- `buffer.writeUInt32LE`. -/
def u32le (v : Nat) : List Nat :=
  [v % 256, v / 256 % 256, v / 65536 % 256, v / 16777216 % 256]

/-- `buffer.write(str, offset)` for the ASCII tags. -/
def asciiBytes (s : String) : List Nat := s.data.map Char.toNat

/-- The 44-byte header written on lines 609–622, for a raw payload of
`dataSize` bytes. -/
def wavHeader (dataSize channels sampleRate bitDepth : Nat) : List Nat :=
  let bytesPerSample := bitDepth / 8
  let byteRate := sampleRate * channels * bytesPerSample
  let blockAlign := channels * bytesPerSample
  asciiBytes "RIFF" ++ u32le (36 + dataSize) ++ asciiBytes "WAVE" ++
  asciiBytes "fmt " ++ u32le 16 ++ u16le 1 ++ u16le channels ++
  u32le sampleRate ++ u32le byteRate ++ u16le blockAlign ++ u16le bitDepth ++
  asciiBytes "data" ++ u32le dataSize

/-- `finalizeWavFile` (lines 599–638): the produced WAV file as a byte
list — the header followed by the raw PCM contents. -/
def finalizeWavFile (raw : List Nat) (channels sampleRate bitDepth : Nat) :
    List Nat :=
  wavHeader raw.length channels sampleRate bitDepth ++ raw

/-- Re-parse a 16-bit little-endian field at a byte offset. -/
def readU16At (l : List Nat) (i : Nat) : Nat :=
  l.getD i 0 + 256 * l.getD (i + 1) 0

/-- Re-parse a 32-bit little-endian field at a byte offset. -/
def readU32At (l : List Nat) (i : Nat) : Nat :=
  l.getD i 0 + 256 * l.getD (i + 1) 0 + 65536 * l.getD (i + 2) 0 +
    16777216 * l.getD (i + 3) 0

/-! ## The summarizer's empty-transcript handling

`utils/summarizer.js`: `generateMeetingSummary` (lines 46–143) throws
`'No transcript text available for summarization'` when the combined text
is empty or whitespace-only (lines 57–60); the surrounding catch then
returns `createFallbackSummary` (lines 271–306) — the same fallback path
used for any other failure, with `isError: true` and the error message in
the metadata. -/

/-- The summary object, restricted to the outcome-discriminating fields:
`metadata.generatedBy`, `metadata.error` and the top-level `isError` flag
(absent, hence `false`, on the success path). -/
structure MeetingSummary where
  generatedBy : String
  errorMsg : Option String
  rawSummary : String
  isError : Bool
  deriving Repr, DecidableEq

/-- `createFallbackSummary` (lines 271–306): fallback metadata with the
error message and `isError: true`. -/
def createFallbackSummary (errorMessage : String) : MeetingSummary :=
  { generatedBy := "Fallback System"
    errorMsg := some errorMessage
    rawSummary := "Fallback summary generated due to AI error: " ++ errorMessage
    isError := true }

/-- `generateMeetingSummary` (lines 46–143), with the Gemini call supplied
as an `Except`-valued response. An empty or whitespace-only combined text
throws (line 58–59) and is caught into the fallback; a Gemini failure or an
empty Gemini response likewise; otherwise the structured summary is built
with `generatedBy: 'Gemini AI'` and no error. -/
def generateMeetingSummary (combinedText : String)
    (gemini : Except String String) : MeetingSummary :=
  if combinedText = "" ∨ jsTrim combinedText = "" then
    createFallbackSummary "No transcript text available for summarization"
  else
    match gemini with
    | .error e => createFallbackSummary e
    | .ok s =>
        if s = "" ∨ jsTrim s = "" then
          createFallbackSummary "Gemini returned empty summary"
        else
          { generatedBy := "Gemini AI", errorMsg := none
            rawSummary := s, isError := false }

/-! ## Specification-side definitions for the refinement claims

These two definitions follow the words of the specification (a combined
text that is "the space-joined concatenation of turn texts in receipt
order", and a total word count that is "the sum of each turn's word-array
length (or whitespace-split count if absent)") so that they can be compared
with what `stopStreamingTranscription` actually computes. -/

/-- Split a character list at whitespace. -/
def splitWsAux : List Char → List Char → List (List Char)
  | [], acc => [acc.reverse]
  | c :: cs, acc =>
      if c.isWhitespace then acc.reverse :: splitWsAux cs []
      else splitWsAux cs (c :: acc)

/-- Whitespace-split word count of a string, per the specification's
"whitespace-split count". -/
def specSplitWordCount (s : String) : Nat :=
  ((splitWsAux s.data []).filter (fun w => w ≠ [])).length

/-- The specification's combined text: the space-joined concatenation of
the inbound turn texts in receipt order. -/
def specCombinedText (msgs : List TurnMessage) : String :=
  String.intercalate " " (msgs.map (fun m => (m.transcript).getD ""))

/-- The specification's total word count: per turn, the word-array length,
or the whitespace-split count of the transcript when the word array is
absent. -/
def specTotalWords (msgs : List TurnMessage) : Nat :=
  (msgs.map (fun m =>
    match m.words with
    | some ws => ws.length
    | none => specSplitWordCount ((m.transcript).getD ""))).sum

/-! # Theorems -/

/-! ## Helper lemmas -/

/-- A deleted key is no longer found in the session registry. -/
theorem find?_filter_ne_none (r : SessionReg) (sid : String) :
    (r.filter (fun s => s.sessionId ≠ sid)).find?
        (fun s => s.sessionId = sid) = none := by
  rw [List.find?_eq_none]
  intro s hs
  have := (List.mem_filter.mp hs).2
  simpa using this

/-- `stopStreamingSession` on an unregistered id returns `null` and changes
nothing. -/
theorem stopStreamingSession_not_found {r : SessionReg} {tr : TranscriberReg}
    {sid : String} {now : Nat}
    (h : r.find? (fun s => s.sessionId = sid) = none) :
    stopStreamingSession r tr sid now = (none, r, tr) := by
  simp [stopStreamingSession, h]

/-- `stopStreamingSession` on a registered id delegates to
`stopStreamingTranscription` and filters the entry out. -/
theorem stopStreamingSession_found {r : SessionReg} {tr : TranscriberReg}
    {sid : String} {now : Nat} {s0 : SessionInfo}
    (h : r.find? (fun s => s.sessionId = sid) = some s0) :
    stopStreamingSession r tr sid now
      = (some (stopStreamingTranscription tr sid now).1,
          r.filter (fun s => s.sessionId ≠ sid),
          (stopStreamingTranscription tr sid now).2) := by
  simp [stopStreamingSession, h]

/-- `getCurrentStreamingStatus` is `null` iff no registered session is
active; here: the `null` direction. -/
theorem getCurrentStreamingStatus_eq_none {r : SessionReg} {now : Nat}
    (h : r.filter (fun s => s.active) = []) :
    getCurrentStreamingStatus r now = none := by
  simp only [getCurrentStreamingStatus, h, List.getLast?_nil]

/-! ## C10: only non-whitespace turns are stored -/

/-- C10. Every turn record stored in a session's transcript list has
non-empty, non-whitespace text: a `Turn` message whose transcript is
missing, empty, or whitespace-only leaves the session data — in particular
the turn list and `lastActivity` — completely unchanged, and the handler
preserves the invariant that all stored texts are non-whitespace. -/
theorem turn_filter_invariant :
    (∀ (d : SessionData) (m : TurnMessage) (now : Nat),
        (m.transcript = none ∨ ∃ s, m.transcript = some s ∧ jsTrim s = "") →
        handleTurnMessage d m now = d) ∧
    (∀ (d : SessionData) (m : TurnMessage) (now : Nat),
        (∀ e ∈ d.transcripts, jsTrim e.text ≠ "") →
        ∀ e ∈ (handleTurnMessage d m now).transcripts, jsTrim e.text ≠ "") := by
  constructor
  · intro d m now h
    have hacc : turnAccepted m = false := by
      rcases h with h | ⟨s, hs, htrim⟩
      · simp [turnAccepted, h]
      · simp [turnAccepted, hs, htrim]
    simp [handleTurnMessage, hacc]
  · intro d m now hinv e he
    by_cases hacc : turnAccepted m = true
    · rcases hm : m.transcript with _ | s
      · simp [turnAccepted, hm] at hacc
      · have hs : jsTrim s ≠ "" := by
          have h2 : ¬s = "" ∧ ¬jsTrim s = "" := by
            simpa [turnAccepted, hm] using hacc
          exact h2.2
        rw [handleTurnMessage, if_pos hacc] at he
        simp only [List.mem_append, List.mem_singleton] at he
        rcases he with he | he
        · exact hinv e he
        · subst he
          simpa [hm] using hs
    · rw [handleTurnMessage, if_neg hacc] at he
      exact hinv e he

/-- Witness for C10: a whitespace-only turn message is dropped without any
state change, and processing a well-formed turn preserves the
non-whitespace invariant. -/
theorem turn_filter_invariant_witness :
    handleTurnMessage (SessionData.init 3)
        ⟨some "  ", none, none, none, none⟩ 9 = SessionData.init 3 ∧
    ∀ e ∈ (handleTurnMessage (SessionData.init 3)
        ⟨some "hi", none, none, some ["hi"], none⟩ 9).transcripts,
      jsTrim e.text ≠ "" :=
  ⟨turn_filter_invariant.1 _ _ _ (Or.inr ⟨"  ", rfl, by decide⟩),
   turn_filter_invariant.2 _ _ _ (by simp [SessionData.init])⟩

/-! ## C4: stopping twice is safe -/

/-- C4. A second `stop` on the same session identifier, issued after a
completed stop, is safe at both layers: `stopStreamingSession` returns the
well-defined `null` result (never throws) without touching either registry,
and `stopStreamingTranscription` likewise returns its empty-stub result
leaving the transcriber registry unchanged. -/
theorem second_stop_returns_null (r : SessionReg) (tr : TranscriberReg)
    (sid : String) (now now' : Nat) :
    stopStreamingSession (stopStreamingSession r tr sid now).2.1
        (stopStreamingSession r tr sid now).2.2 sid now'
      = (none, (stopStreamingSession r tr sid now).2.1,
          (stopStreamingSession r tr sid now).2.2) ∧
    stopStreamingTranscription (stopStreamingTranscription tr sid now).2 sid now'
      = (.noSession, (stopStreamingTranscription tr sid now).2) := by
  constructor
  · rcases hfind : r.find? (fun s => s.sessionId = sid) with _ | s0
    · rw [stopStreamingSession_not_found hfind,
         stopStreamingSession_not_found hfind]
    · rw [stopStreamingSession_found hfind,
         stopStreamingSession_not_found (find?_filter_ne_none r sid)]
  · rcases hget : regGet tr sid with _ | d0
    · simp [stopStreamingTranscription, hget]
    · have hnone : regGet (regDelete tr sid) sid = none := by
        have hfind2 : (regDelete tr sid).find? (fun p => p.1 = sid) = none := by
          rw [List.find?_eq_none]
          intro p hp
          have := (List.mem_filter.mp hp).2
          simpa using this
        simp [regGet, hfind2]
      simp [stopStreamingTranscription, hget, hnone]

/-! ## C2: starting while a session is active fails without side effects -/

/-- C2. Whenever some session in the registry is active, a `/join` start
attempt takes the already-recording branch: it fails with the
"Already Recording" outcome and leaves both the session registry (entries
and subscriptions) and the transcriber registry (accumulated turns)
exactly as they were. -/
theorem join_rejected_while_active (r : SessionReg) (tr : TranscriberReg)
    (sid : String) (userIds : List String) (now : Nat)
    (h : ∃ s ∈ r, s.active = true) :
    joinStart r tr sid userIds now = (.alreadyRecording, r, tr) := by
  obtain ⟨s, hs, hact⟩ := h
  have hmem : s ∈ r.filter (fun s => s.active) :=
    List.mem_filter.mpr ⟨hs, by simp [hact]⟩
  have hne : r.filter (fun s => s.active) ≠ [] := List.ne_nil_of_mem hmem
  obtain ⟨lastS, hlast⟩ :=
    Option.isSome_iff_exists.mp (List.getLast?_isSome.mpr hne)
  have hlmem : lastS ∈ r.filter (fun s => s.active) :=
    List.mem_of_mem_getLast? hlast
  have hlact : lastS.active = true := by
    simpa using (List.mem_filter.mp hlmem).2
  simp only [joinStart, getCurrentStreamingStatus, hlast, hlact, if_pos]

/-- Witness for C2: with one active session registered, a start attempt for
a fresh id is rejected and both registries are returned untouched. -/
theorem join_rejected_while_active_witness :
    joinStart [⟨"g1_100", ["u1", "u2"], 100, true⟩] [] "g1_200" ["u3"] 200
      = (.alreadyRecording, [⟨"g1_100", ["u1", "u2"], 100, true⟩], []) :=
  join_rejected_while_active _ _ _ _ _
    ⟨⟨"g1_100", ["u1", "u2"], 100, true⟩, by decide, rfl⟩

/-! ## C3: stopping removes the session and clears the status -/

/-- C3. For a registered session that is the only possibly-active one (the
process-wide single-recording policy), completing `stopStreamingSession`
removes the session's entry from the registry and a subsequent
`getCurrentStreamingStatus` query returns `null`. -/
theorem stop_removes_and_clears_status (r : SessionReg) (tr : TranscriberReg)
    (sid : String) (now now' : Nat)
    (hreg : ∃ s ∈ r, s.sessionId = sid)
    (hothers : ∀ s ∈ r, s.sessionId ≠ sid → s.active = false) :
    (∀ s ∈ (stopStreamingSession r tr sid now).2.1, s.sessionId ≠ sid) ∧
    getCurrentStreamingStatus (stopStreamingSession r tr sid now).2.1 now'
      = none := by
  obtain ⟨s0, hs0, hid⟩ := hreg
  have hfind : ∃ sf, r.find? (fun s => s.sessionId = sid) = some sf := by
    have h1 : r.find? (fun s => s.sessionId = sid) ≠ none := by
      intro hn
      have := List.find?_eq_none.mp hn s0 hs0
      simp [hid] at this
    exact Option.ne_none_iff_exists'.mp h1
  obtain ⟨sf, hsf⟩ := hfind
  have hres : (stopStreamingSession r tr sid now).2.1
      = r.filter (fun s => s.sessionId ≠ sid) := by
    rw [stopStreamingSession_found hsf]
  constructor
  · intro s hs
    rw [hres] at hs
    simpa using (List.mem_filter.mp hs).2
  · rw [hres]
    have hnil : (r.filter (fun s => s.sessionId ≠ sid)).filter
        (fun s => s.active) = [] := by
      apply List.filter_eq_nil_iff.mpr
      intro s hs
      have hmem := List.mem_filter.mp hs
      have hne : s.sessionId ≠ sid := by simpa using hmem.2
      simp [hothers s hmem.1 hne]
    exact getCurrentStreamingStatus_eq_none hnil

/-- Witness for C3: stopping the unique registered (active) session leaves
an empty registry and a `null` current status. -/
theorem stop_removes_and_clears_status_witness :
    (∀ s ∈ (stopStreamingSession [⟨"g1_100", ["u1"], 100, true⟩]
        [("g1_100", SessionData.init 100)] "g1_100" 500).2.1,
      s.sessionId ≠ "g1_100") ∧
    getCurrentStreamingStatus (stopStreamingSession
        [⟨"g1_100", ["u1"], 100, true⟩]
        [("g1_100", SessionData.init 100)] "g1_100" 500).2.1 600 = none :=
  stop_removes_and_clears_status _ _ _ _ _
    ⟨⟨"g1_100", ["u1"], 100, true⟩, by decide, rfl⟩ (by decide)

/-! ## C7: the empty-transcript outcome -/

/-- Counterexample for C7. With an empty combined text the caller is *not*
given a distinct "no speech captured" outcome: `generateMeetingSummary`
routes the condition through the same error/fallback path as any other
failure — the result carries `isError = true` and `generatedBy = "Fallback
System"` exactly like a generic Gemini failure does, and the no-speech
condition is identifiable only by the error-message string. -/
theorem empty_transcript_error_counterexample :
    (generateMeetingSummary "" (.ok "1. Brief Overview: all good")).isError
      = true ∧
    (generateMeetingSummary "" (.ok "1. Brief Overview: all good")).generatedBy
      = (generateMeetingSummary "hello" (.error "Gemini API failure")).generatedBy ∧
    (generateMeetingSummary "" (.ok "1. Brief Overview: all good")).errorMsg
      = some "No transcript text available for summarization" := by
  decide

/-- C7 (amended). An empty or whitespace-only combined text makes
`generateMeetingSummary` return the generic fallback summary (the same
error-marked result produced for any other failure), carrying the specific
message `'No transcript text available for summarization'`; the no-speech
case is distinguishable from other failures only by that message text, not
by a distinct outcome kind. -/
theorem empty_transcript_fallback (t : String) (g : Except String String)
    (h : jsTrim t = "") :
    generateMeetingSummary t g
        = createFallbackSummary "No transcript text available for summarization" ∧
    (generateMeetingSummary t g).isError = true := by
  constructor
  · simp [generateMeetingSummary, h]
  · simp [generateMeetingSummary, h, createFallbackSummary]

/-- Witness for C7 (amended): a whitespace-only transcript yields the
fallback error result even though the Gemini call would have succeeded. -/
theorem empty_transcript_fallback_witness :
    generateMeetingSummary "   " (.ok "a fine summary")
        = createFallbackSummary "No transcript text available for summarization" ∧
    (generateMeetingSummary "   " (.ok "a fine summary")).isError = true :=
  empty_transcript_fallback "   " (.ok "a fine summary") (by decide)

/-! ## C5: handshake timeout -/

/-- Counterexample for C5. An open attempt in which the `Begin`
acknowledgement arrives only after the 10-second deadline: `open()` does
fail with the connection timeout, but the late `Begin` still runs the
registration handler, so after the failure the registry *does* contain an
entry for the session id — contradicting the claim that it contains none. -/
theorem open_timeout_late_begin_counterexample :
    (createStreamingTranscriber [] "s1" 0
        [(10500, .message (.begin "remote-id" 42))]).1
      = .connectionTimeout ∧
    regGet (createStreamingTranscriber [] "s1" 0
        [(10500, .message (.begin "remote-id" 42))]).2 "s1" ≠ none := by
  decide

/-- C5 (amended). If no `Begin` message is delivered at all and no socket
error occurs before the 10-second deadline, `open()` fails with the
connection-timeout error and the transcriber registry is left exactly as it
was (in particular without an entry for the session id). A `Begin`
delivered after the deadline, however, still registers an entry despite the
already-reported failure, because the message handler is never detached. -/
theorem open_timeout_no_begin (r : TranscriberReg) (sid : String)
    (startNow : Nat) (events : List (Nat × WsEvent))
    (hNoBegin : ∀ te ∈ events, isBeginEvent te.2 = false)
    (hNoErr : ∀ te ∈ events,
        te.1 < handshakeTimeoutMs → te.2 ≠ WsEvent.socketError) :
    createStreamingTranscriber r sid startNow events
      = (.connectionTimeout, r) := by
  have hfind : events.find?
      (fun te => te.1 < handshakeTimeoutMs && settlesPromise te.2) = none := by
    rw [List.find?_eq_none]
    rintro ⟨t, e⟩ hte hcontra
    simp only [Bool.and_eq_true, decide_eq_true_eq] at hcontra
    obtain ⟨ht, hsettle⟩ := hcontra
    cases e with
    | message m =>
        cases m with
        | begin id ex =>
            have := hNoBegin (t, .message (.begin id ex)) hte
            simp [isBeginEvent] at this
        | turn m => simp [settlesPromise] at hsettle
        | termination => simp [settlesPromise] at hsettle
        | unknown => simp [settlesPromise] at hsettle
    | socketError => exact hNoErr (t, .socketError) hte ht rfl
    | socketClose => simp [settlesPromise] at hsettle
  have hany : events.any (fun te => isBeginEvent te.2) = false := by
    simp only [List.any_eq_false]
    intro te hte
    simp [hNoBegin te hte]
  simp [createStreamingTranscriber, openAttemptResult, openAttemptRegistry,
    hfind, hany]

/-- Witness for C5 (amended): an attempt that receives only an unknown
message and a socket error *after* the deadline times out with the registry
untouched. -/
theorem open_timeout_no_begin_witness :
    createStreamingTranscriber [] "s2" 0
        [(500, .message .unknown), (12000, .socketError)]
      = (.connectionTimeout, []) :=
  open_timeout_no_begin [] "s2" 0
    [(500, .message .unknown), (12000, .socketError)]
    (by decide) (by decide)

/-! ## C1: final-transcript text and word count -/

/-- The transcript entry an inbound message contributes to the session's
turn list, if any (the `Turn` branch of the message handler). -/
def entryOfMessage (m : TurnMessage) : Option TranscriptEntry :=
  if turnAccepted m then
    some { text := (m.transcript).getD ""
           turnOrder := m.turnOrder
           confidence := m.endOfTurnConfidence
           words := (m.words).getD []
           speakerId := m.speakerId }
  else none

/-- `turnAccepted` holds exactly for messages with a present, non-empty,
non-whitespace transcript. -/
theorem turnAccepted_iff (m : TurnMessage) :
    turnAccepted m = true
      ↔ ∃ s, m.transcript = some s ∧ s ≠ "" ∧ jsTrim s ≠ "" := by
  rcases hm : m.transcript with _ | s <;> simp [turnAccepted, hm]

/-- Processing a message sequence appends exactly the accepted entries, in
receipt order. -/
theorem processTurnMessages_transcripts (msgs : List (TurnMessage × Nat))
    (d : SessionData) :
    (processTurnMessages d msgs).transcripts
      = d.transcripts ++ msgs.filterMap (fun tm => entryOfMessage tm.1) := by
  induction msgs generalizing d with
  | nil => simp [processTurnMessages]
  | cons tm rest ih =>
      rcases tm with ⟨m, t⟩
      rw [processTurnMessages, ih]
      by_cases hacc : turnAccepted m = true
      · simp [handleTurnMessage, hacc, entryOfMessage, List.filterMap_cons]
      · simp [handleTurnMessage, hacc, entryOfMessage, List.filterMap_cons]

/-- The word-count reduction is the sum of the stored word-array
lengths. -/
theorem wordCountOf_eq_sum (ts : List TranscriptEntry) :
    wordCountOf ts = (ts.map (fun t => t.words.length)).sum := by
  have haux : ∀ (l : List TranscriptEntry) (n : Nat),
      l.foldl (fun count t => count + t.words.length) n
        = n + (l.map (fun t => t.words.length)).sum := by
    intro l
    induction l with
    | nil => simp
    | cons e l ih =>
        intro n
        simp only [List.foldl_cons, List.map_cons, List.sum_cons, ih]
        omega
  simpa [wordCountOf] using haux ts 0

/-- The transcript an inbound message contributes to the stored turn list,
if any: it must be present, non-empty and not whitespace-only. -/
def storedTextOf (m : TurnMessage) : Option String :=
  match m.transcript with
  | some s => if s ≠ "" ∧ jsTrim s ≠ "" then some s else none
  | none => none

/-- The word count an inbound message contributes (`words?.length || 0`
means `0` for an absent word array). -/
def storedWordCountOf (m : TurnMessage) : Option Nat :=
  match m.transcript with
  | some s =>
      if s ≠ "" ∧ jsTrim s ≠ "" then some ((m.words).getD []).length
      else none
  | none => none

/-- The transcripts the session actually stores, in receipt order. -/
def storedTexts (msgs : List (TurnMessage × Nat)) : List String :=
  msgs.filterMap (fun tm => storedTextOf tm.1)

/-- The word-array lengths of the stored turns, in receipt order. -/
def storedWordCounts (msgs : List (TurnMessage × Nat)) : List Nat :=
  msgs.filterMap (fun tm => storedWordCountOf tm.1)

/-- When a message is not accepted, `turnAccepted` is false. -/
theorem turnAccepted_eq_false_of_not {m : TurnMessage} {s : String}
    (htm : m.transcript = some s) (hcond : ¬(s ≠ "" ∧ jsTrim s ≠ "")) :
    turnAccepted m = false := by
  rw [Bool.eq_false_iff]
  intro hc
  obtain ⟨s', hs', hcond'⟩ := (turnAccepted_iff m).mp hc
  rw [htm] at hs'
  cases hs'
  exact hcond hcond'

/-- The texts of the accepted entries are the stored texts. -/
theorem map_text_entries (msgs : List (TurnMessage × Nat)) :
    (msgs.filterMap (fun tm => entryOfMessage tm.1)).map TranscriptEntry.text
      = storedTexts msgs := by
  induction msgs with
  | nil => rfl
  | cons tm rest ih =>
      rcases htm : tm.1.transcript with _ | s
      · have hacc : turnAccepted tm.1 = false := by simp [turnAccepted, htm]
        have he : entryOfMessage tm.1 = none := by
          simp [entryOfMessage, hacc]
        have hf : storedTextOf tm.1 = none := by simp [storedTextOf, htm]
        simp only [storedTexts, List.filterMap_cons, he, hf]
        exact ih
      · by_cases hcond : s ≠ "" ∧ jsTrim s ≠ ""
        · have hacc : turnAccepted tm.1 = true :=
            (turnAccepted_iff tm.1).mpr ⟨s, htm, hcond⟩
          have he : entryOfMessage tm.1 = some
              { text := s, turnOrder := tm.1.turnOrder
                confidence := tm.1.endOfTurnConfidence
                words := (tm.1.words).getD []
                speakerId := tm.1.speakerId } := by
            simp [entryOfMessage, hacc, htm]
          have hf : storedTextOf tm.1 = some s := by
            simp [storedTextOf, htm, hcond.1, hcond.2]
          simp only [storedTexts, List.filterMap_cons, he, hf, List.map_cons]
          rw [ih]
          rfl
        · have hacc := turnAccepted_eq_false_of_not htm hcond
          have he : entryOfMessage tm.1 = none := by
            simp [entryOfMessage, hacc]
          have hf : storedTextOf tm.1 = none := by
            simp only [storedTextOf, htm, if_neg hcond]
          simp only [storedTexts, List.filterMap_cons, he, hf]
          exact ih

/-- The word-array lengths of the accepted entries are the stored
word counts. -/
theorem map_words_entries (msgs : List (TurnMessage × Nat)) :
    (msgs.filterMap (fun tm => entryOfMessage tm.1)).map
        (fun t => t.words.length)
      = storedWordCounts msgs := by
  induction msgs with
  | nil => rfl
  | cons tm rest ih =>
      rcases htm : tm.1.transcript with _ | s
      · have hacc : turnAccepted tm.1 = false := by simp [turnAccepted, htm]
        have he : entryOfMessage tm.1 = none := by
          simp [entryOfMessage, hacc]
        have hf : storedWordCountOf tm.1 = none := by
          simp [storedWordCountOf, htm]
        simp only [storedWordCounts, List.filterMap_cons, he, hf]
        exact ih
      · by_cases hcond : s ≠ "" ∧ jsTrim s ≠ ""
        · have hacc : turnAccepted tm.1 = true :=
            (turnAccepted_iff tm.1).mpr ⟨s, htm, hcond⟩
          have he : entryOfMessage tm.1 = some
              { text := s, turnOrder := tm.1.turnOrder
                confidence := tm.1.endOfTurnConfidence
                words := (tm.1.words).getD []
                speakerId := tm.1.speakerId } := by
            simp [entryOfMessage, hacc, htm]
          have hf : storedWordCountOf tm.1 = some ((tm.1.words).getD []).length := by
            simp [storedWordCountOf, htm, hcond.1, hcond.2]
          simp only [storedWordCounts, List.filterMap_cons, he, hf,
            List.map_cons]
          rw [ih]
          rfl
        · have hacc := turnAccepted_eq_false_of_not htm hcond
          have he : entryOfMessage tm.1 = none := by
            simp [entryOfMessage, hacc]
          have hf : storedWordCountOf tm.1 = none := by
            simp only [storedWordCountOf, htm, if_neg hcond]
          simp only [storedWordCounts, List.filterMap_cons, he, hf]
          exact ih

/-- Counterexample for C1. Two inbound turn messages — a whitespace-only
one and `"hello there"` carrying no word array: the code's final transcript
has `totalWords = 0` (the word-array fallback is `0`, not the
whitespace-split count `2`) and its combined text drops the filtered turn
and the surrounding whitespace, so both clauses of the claim fail. -/
theorem final_transcript_assembly_counterexample :
    (assembleFinalTranscript "s"
        (processTurnMessages (SessionData.init 0)
          [(⟨some "  ", none, none, none, none⟩, 1),
           (⟨some "hello there", none, none, none, none⟩, 2)]) 3).totalWords
      = 0 ∧
    specTotalWords [⟨some "  ", none, none, none, none⟩,
        ⟨some "hello there", none, none, none, none⟩] = 2 ∧
    (assembleFinalTranscript "s"
        (processTurnMessages (SessionData.init 0)
          [(⟨some "  ", none, none, none, none⟩, 1),
           (⟨some "hello there", none, none, none, none⟩, 2)]) 3).combinedText
      = "hello there" ∧
    specCombinedText [⟨some "  ", none, none, none, none⟩,
        ⟨some "hello there", none, none, none, none⟩] = "   hello there" := by
  decide

/-- C1 (amended). For every sequence of inbound `Turn` messages, the final
transcript's combined text is the *trimmed* space-join of the transcripts
of exactly those messages whose transcript is present and not
whitespace-only, in receipt order; and the total word count is the sum of
those turns' word-array lengths, counting `0` (not the whitespace-split
count) for a turn without a word array. -/
theorem final_transcript_assembly (msgs : List (TurnMessage × Nat))
    (sid : String) (startNow now : Nat) :
    (assembleFinalTranscript sid
        (processTurnMessages (SessionData.init startNow) msgs) now).combinedText
      = jsTrim (String.intercalate " " (storedTexts msgs)) ∧
    (assembleFinalTranscript sid
        (processTurnMessages (SessionData.init startNow) msgs) now).totalWords
      = (storedWordCounts msgs).sum := by
  have htr := processTurnMessages_transcripts msgs (SessionData.init startNow)
  rw [show (SessionData.init startNow).transcripts = [] from rfl,
    List.nil_append] at htr
  constructor
  · show combinedTextOf _ = _
    rw [htr, combinedTextOf, map_text_entries]
  · show wordCountOf _ = _
    rw [htr, wordCountOf_eq_sum, map_words_entries]

/-! ## C6: average confidence -/

/-- The confidences of the accepted entries, in order. -/
theorem confidences_of_entries (msgs : List (TurnMessage × Nat)) :
    confidencesOf (msgs.filterMap (fun tm => entryOfMessage tm.1))
      = msgs.filterMap (fun tm =>
          if turnAccepted tm.1 then tm.1.endOfTurnConfidence else none) := by
  induction msgs with
  | nil => rfl
  | cons tm rest ih =>
      by_cases hacc : turnAccepted tm.1 = true
      · rcases hco : tm.1.endOfTurnConfidence with _ | c <;>
          simp [List.filterMap_cons, entryOfMessage, hacc, hco,
            confidencesOf, ← ih]
      · simp [List.filterMap_cons, entryOfMessage, hacc, ← ih]

/-- The three-turn scenario of the specification. -/
def scenarioMsgs : List (TurnMessage × Nat) :=
  [(⟨some "hello there", some 1, some (9/10), some ["hello", "there"], none⟩, 1),
   (⟨some "yes exactly", some 2, some (8/10), some ["yes", "exactly"], none⟩, 2),
   (⟨some "okay great", some 3, some 1, some ["okay", "great"], none⟩, 3)]

/-- C6. The final transcript's average confidence is the arithmetic mean of
the confidences of exactly those stored turns that carry one, and `0` when
none does; in particular the three-turn scenario with confidences 0.9, 0.8
and 1.0 yields average confidence 0.9 (together with combined text
`"hello there yes exactly okay great"` and `totalWords = 6`). -/
theorem average_confidence_mean :
    (∀ (msgs : List (TurnMessage × Nat)) (sid : String) (startNow now : Nat),
      (assembleFinalTranscript sid
          (processTurnMessages (SessionData.init startNow) msgs) now).averageConfidence
        = if (msgs.filterMap (fun tm =>
              if turnAccepted tm.1 then tm.1.endOfTurnConfidence else none)).length = 0
          then 0
          else (msgs.filterMap (fun tm =>
                  if turnAccepted tm.1 then tm.1.endOfTurnConfidence else none)).sum
            / ((msgs.filterMap (fun tm =>
                  if turnAccepted tm.1 then tm.1.endOfTurnConfidence else none)).length : ℚ)) ∧
    (assembleFinalTranscript "s"
        (processTurnMessages (SessionData.init 0) scenarioMsgs) 9).averageConfidence
      = 9/10 ∧
    (assembleFinalTranscript "s"
        (processTurnMessages (SessionData.init 0) scenarioMsgs) 9).combinedText
      = "hello there yes exactly okay great" ∧
    (assembleFinalTranscript "s"
        (processTurnMessages (SessionData.init 0) scenarioMsgs) 9).totalWords
      = 6 := by
  refine ⟨?_, ?_, by decide, by decide⟩
  · intro msgs sid startNow now
    have htr := processTurnMessages_transcripts msgs (SessionData.init startNow)
    rw [show (SessionData.init startNow).transcripts = [] from rfl,
      List.nil_append] at htr
    show averageConfidenceOf _ = _
    rw [averageConfidenceOf, htr, confidences_of_entries]
    rcases Nat.eq_zero_or_pos (msgs.filterMap (fun tm =>
        if turnAccepted tm.1 then tm.1.endOfTurnConfidence else none)).length with h0 | hpos
    · simp [h0]
    · simp [hpos, Nat.pos_iff_ne_zero.mp hpos]
  · have hc : confidencesOf
        (processTurnMessages (SessionData.init 0) scenarioMsgs).transcripts
        = [(9:ℚ)/10, 8/10, 1] := rfl
    show averageConfidenceOf
        (processTurnMessages (SessionData.init 0) scenarioMsgs).transcripts
      = 9/10
    rw [averageConfidenceOf, hc]
    norm_num

/-! ## C8: the RMS voice-activity value -/

/-- C8. Evaluation of `computeRms` at the claim's frames. The all-zero
frame yields exactly `0`, but the full-scale alternating max/min frame
(bytes `FF 7F 00 80`, i.e. samples `+32767, −32768`) yields
`√((32767² + 32768²)/2) / 32767 ≈ 1.0000153` — *strictly greater than 1*
(by more than `10⁻⁵`, far beyond floating-point tolerance), because the
code normalizes by `32767` while the most negative 16-bit sample has
magnitude `32768`. This contradicts both the claim and the function's own
doc comment ("return normalized value 0..1"). -/
theorem computeRms_full_scale_exceeds_one :
    computeRms [0, 0, 0, 0] = 0 ∧
    1 + 1/100000 < computeRms [255, 127, 0, 128] ∧
    computeRms [255, 127, 0, 128] < 1 + 2/100000 := by
  have hq : meanSquare [255, 127, 0, 128] = 2147418113 / 2 := by
    norm_num [meanSquare, sumSquares, sampleCount, pcm16Samples, readInt16LE]
  have hm : ((meanSquare [255, 127, 0, 128] : ℚ) : ℝ) = 2147418113 / 2 := by
    rw [hq]
    push_cast
    norm_num
  refine ⟨?_, ?_, ?_⟩
  · have h0 : meanSquare [0, 0, 0, 0] = 0 := by
      norm_num [meanSquare, sumSquares, sampleCount, pcm16Samples, readInt16LE]
    rw [computeRms, if_neg (by norm_num), h0]
    norm_num [Real.sqrt_zero]
  · rw [computeRms, if_neg (by norm_num), hm,
      lt_div_iff₀ (by norm_num : (0:ℝ) < 32767),
      Real.lt_sqrt (by norm_num : (0:ℝ) ≤ (1 + 1/100000) * 32767)]
    norm_num
  · rw [computeRms, if_neg (by norm_num), hm,
      div_lt_iff₀ (by norm_num : (0:ℝ) < 32767),
      Real.sqrt_lt' (by norm_num : (0:ℝ) < (1 + 2/100000) * 32767)]
    norm_num

/-! ## C9: WAV finalization -/

/-- The header written by `finalizeWavFile`, as an explicit 44-byte
list. -/
theorem wavHeader_explicit (n c s b : Nat) :
    wavHeader n c s b =
      [82, 73, 70, 70,
       (36 + n) % 256, (36 + n) / 256 % 256, (36 + n) / 65536 % 256,
       (36 + n) / 16777216 % 256,
       87, 65, 86, 69,
       102, 109, 116, 32,
       16, 0, 0, 0,
       1, 0,
       c % 256, c / 256 % 256,
       s % 256, s / 256 % 256, s / 65536 % 256, s / 16777216 % 256,
       s * c * (b / 8) % 256, s * c * (b / 8) / 256 % 256,
       s * c * (b / 8) / 65536 % 256, s * c * (b / 8) / 16777216 % 256,
       c * (b / 8) % 256, c * (b / 8) / 256 % 256,
       b % 256, b / 256 % 256,
       100, 97, 116, 97,
       n % 256, n / 256 % 256, n / 65536 % 256, n / 16777216 % 256] := rfl

/-- The RIFF/WAVE header is exactly 44 bytes. -/
theorem wavHeader_length (n c s b : Nat) : (wavHeader n c s b).length = 44 := by
  rw [wavHeader_explicit]
  rfl

/-- C9. For every raw PCM byte sequence of length `N` (with the field
values in the ranges `Buffer.writeUInt16LE`/`writeUInt32LE` accept, and a
byte-aligned bit depth), the finalized WAV file is exactly `N + 44` bytes;
re-parsing its header yields the configured channel count, sample rate,
derived byte rate and block align, bit depth, and a data size of `N`; and
the payload after the 44-byte header is the raw PCM data unchanged. -/
theorem wav_finalization (raw : List Nat) (channels sampleRate bitDepth : Nat)
    (hch : channels < 65536) (hbd : bitDepth < 65536)
    (hdvd : 8 ∣ bitDepth)
    (hsr : sampleRate < 4294967296)
    (hbr : sampleRate * channels * (bitDepth / 8) < 4294967296)
    (hba : channels * (bitDepth / 8) < 65536)
    (hn : 36 + raw.length < 4294967296) :
    (finalizeWavFile raw channels sampleRate bitDepth).length
      = raw.length + 44 ∧
    readU16At (finalizeWavFile raw channels sampleRate bitDepth) 22
      = channels ∧
    readU32At (finalizeWavFile raw channels sampleRate bitDepth) 24
      = sampleRate ∧
    readU32At (finalizeWavFile raw channels sampleRate bitDepth) 28
      = sampleRate * channels * (bitDepth / 8) ∧
    readU16At (finalizeWavFile raw channels sampleRate bitDepth) 32
      = channels * (bitDepth / 8) ∧
    readU16At (finalizeWavFile raw channels sampleRate bitDepth) 34
      = bitDepth ∧
    readU32At (finalizeWavFile raw channels sampleRate bitDepth) 40
      = raw.length ∧
    (finalizeWavFile raw channels sampleRate bitDepth).drop 44 = raw := by
  have hlen := wavHeader_length raw.length channels sampleRate bitDepth
  refine ⟨?_, ?_, ?_, ?_, ?_, ?_, ?_, ?_⟩
  · rw [finalizeWavFile, List.length_append, hlen]
    omega
  · rw [readU16At, finalizeWavFile,
      List.getD_append _ _ _ _ (by rw [hlen]; omega),
      List.getD_append _ _ _ _ (by rw [hlen]; omega), wavHeader_explicit]
    show channels % 256 + 256 * (channels / 256 % 256) = channels
    omega
  · rw [readU32At, finalizeWavFile,
      List.getD_append _ _ _ _ (by rw [hlen]; omega),
      List.getD_append _ _ _ _ (by rw [hlen]; omega),
      List.getD_append _ _ _ _ (by rw [hlen]; omega),
      List.getD_append _ _ _ _ (by rw [hlen]; omega), wavHeader_explicit]
    show sampleRate % 256 + 256 * (sampleRate / 256 % 256)
        + 65536 * (sampleRate / 65536 % 256)
        + 16777216 * (sampleRate / 16777216 % 256) = sampleRate
    omega
  · rw [readU32At, finalizeWavFile,
      List.getD_append _ _ _ _ (by rw [hlen]; omega),
      List.getD_append _ _ _ _ (by rw [hlen]; omega),
      List.getD_append _ _ _ _ (by rw [hlen]; omega),
      List.getD_append _ _ _ _ (by rw [hlen]; omega), wavHeader_explicit]
    show sampleRate * channels * (bitDepth / 8) % 256
        + 256 * (sampleRate * channels * (bitDepth / 8) / 256 % 256)
        + 65536 * (sampleRate * channels * (bitDepth / 8) / 65536 % 256)
        + 16777216 * (sampleRate * channels * (bitDepth / 8) / 16777216 % 256)
      = sampleRate * channels * (bitDepth / 8)
    omega
  · rw [readU16At, finalizeWavFile,
      List.getD_append _ _ _ _ (by rw [hlen]; omega),
      List.getD_append _ _ _ _ (by rw [hlen]; omega), wavHeader_explicit]
    show channels * (bitDepth / 8) % 256
        + 256 * (channels * (bitDepth / 8) / 256 % 256)
      = channels * (bitDepth / 8)
    omega
  · rw [readU16At, finalizeWavFile,
      List.getD_append _ _ _ _ (by rw [hlen]; omega),
      List.getD_append _ _ _ _ (by rw [hlen]; omega), wavHeader_explicit]
    show bitDepth % 256 + 256 * (bitDepth / 256 % 256) = bitDepth
    omega
  · rw [readU32At, finalizeWavFile,
      List.getD_append _ _ _ _ (by rw [hlen]; omega),
      List.getD_append _ _ _ _ (by rw [hlen]; omega),
      List.getD_append _ _ _ _ (by rw [hlen]; omega),
      List.getD_append _ _ _ _ (by rw [hlen]; omega), wavHeader_explicit]
    show raw.length % 256 + 256 * (raw.length / 256 % 256)
        + 65536 * (raw.length / 65536 % 256)
        + 16777216 * (raw.length / 16777216 % 256) = raw.length
    omega
  · rw [finalizeWavFile, ← hlen]
    exact List.drop_left _ _

/-- Witness for C9: a 3-byte raw file with the configuration the code uses
(mono, 48 kHz, 16-bit) finalizes to 47 bytes whose header re-parses to the
configured fields with data size 3. -/
theorem wav_finalization_witness :
    (finalizeWavFile [1, 2, 3] 1 48000 16).length = 47 ∧
    readU16At (finalizeWavFile [1, 2, 3] 1 48000 16) 22 = 1 ∧
    readU32At (finalizeWavFile [1, 2, 3] 1 48000 16) 24 = 48000 ∧
    readU32At (finalizeWavFile [1, 2, 3] 1 48000 16) 28 = 96000 ∧
    readU16At (finalizeWavFile [1, 2, 3] 1 48000 16) 32 = 2 ∧
    readU16At (finalizeWavFile [1, 2, 3] 1 48000 16) 34 = 16 ∧
    readU32At (finalizeWavFile [1, 2, 3] 1 48000 16) 40 = 3 ∧
    (finalizeWavFile [1, 2, 3] 1 48000 16).drop 44 = [1, 2, 3] :=
  wav_finalization [1, 2, 3] 1 48000 16 (by decide) (by decide) (by decide)
    (by decide) (by decide) (by decide) (by decide)

end Transcord
